import Mathlib

/-!
Shallow embedding of the streaming compression/decompression layer of
libosmium (`src/include/osmium/io/compression.hpp`).

Modelling conventions:
* C++ `std::string` byte payloads are `List Nat`.
* File descriptors are `Int` (the code compares them with `>= 0` and the
  sentinel `1` for stdout, and uses `-1` for "closed").
* Calls to the platform primitives `reliable_write`, `reliable_fsync`,
  `reliable_close`, `reliable_read` and `remove_buffered_pages` are recorded
  as an explicit event trace (`IOEvent`); the data a `reliable_read` call
  delivers is an oracle input (`delivered`) of the `read` function.
* Exceptions are modelled with `Except`; an exception possibly raised by a
  platform primitive during `NoCompressor::close` is modelled by the
  environment pair handed to `closeE` (first component: fsync succeeds,
  second: close succeeds).
-/

set_option autoImplicit false

namespace Osmium

/-- Modelled from the spec: the algorithm-identifier enumeration
`osmium::io::file_compression` lives in `osmium/io/file_compression.hpp`,
which is not under `src/`; the spec describes it as "a small closed
enumeration (e.g., `none`, plus externally-registered values); used only as
a map key, never interpreted by the core". -/
inductive file_compression where
  | none
  | gzip
  | bzip2
deriving DecidableEq

/-- Modelled from the spec: the textual name of an algorithm identifier
(`as_string` in `osmium/io/file_compression.hpp`, not under `src/`), used
only to build the unsupported-format diagnostic that "carries the requested
identifier". -/
def as_string : file_compression → String
  | .none => "none"
  | .gzip => "gzip"
  | .bzip2 => "bzip2"

/-- Modelled from the spec: the sync policy `osmium::io::fsync` from
`osmium/io/writer_options.hpp` (not under `src/`): a "two-valued flag
(`fsync-on-close` yes/no) fixed at Compressor construction". -/
inductive fsync where
  | no
  | yes
deriving DecidableEq

/-- The exception hierarchy relevant here: `unsupported_file_format_error`
(from `osmium/io/error.hpp`) carrying its message string, thrown by
`CompressionFactory::find_callbacks`. -/
inductive io_error where
  | unsupported_file_format_error (message : String)
deriving DecidableEq

/-- One call to a platform I/O primitive, recorded in traces.
`remove_buffered_pages_ev fd (some o)` is the two-argument form used before
a read, `remove_buffered_pages_ev fd Option.none` the one-argument form used
in `NoDecompressor::close`. `read_ev fd count nread` records a
`reliable_read(fd, buf, count)` that delivered `nread` bytes. -/
inductive IOEvent where
  | write_ev (fd : Int) (data : List Nat)
  | fsync_ev (fd : Int)
  | close_ev (fd : Int)
  | read_ev (fd : Int) (count : Nat) (nread : Nat)
  | remove_buffered_pages_ev (fd : Int) (offset : Option Nat)
deriving DecidableEq

/-- Number of occurrences of an event in a trace. -/
def countEv (e : IOEvent) : List IOEvent → Nat
  | [] => 0
  | x :: xs => (if x = e then 1 else 0) + countEv e xs

/-- Base class `osmium::io::Compressor` (lines 57-89): stores the sync
policy `m_fsync`. -/
structure Compressor where
  m_fsync : fsync
deriving DecidableEq

/-- `Compressor::do_fsync` (lines 63-65). -/
def Compressor.do_fsync (c : Compressor) : Bool :=
  c.m_fsync == fsync.yes

/-- Base class `osmium::io::Decompressor` (lines 91-146): the three
atomically-observable counters, all default-initialized (lines 93-96). -/
structure Decompressor where
  m_file_size : Nat := 0
  m_offset : Nat := 0
  m_want_buffered_pages_removed : Bool := false
deriving DecidableEq

/-- `Decompressor::input_buffer_size` (lines 100-102). -/
def Decompressor.input_buffer_size : Nat := 1024 * 1024

/-- `Decompressor::file_size` (lines 122-124). -/
def Decompressor.file_size (d : Decompressor) : Nat := d.m_file_size

/-- `Decompressor::set_file_size` (lines 126-128). -/
def Decompressor.set_file_size (d : Decompressor) (size : Nat) : Decompressor :=
  { d with m_file_size := size }

/-- `Decompressor::offset` (lines 130-132). -/
def Decompressor.offset (d : Decompressor) : Nat := d.m_offset

/-- `Decompressor::set_offset` (lines 134-136). -/
def Decompressor.set_offset (d : Decompressor) (offset : Nat) : Decompressor :=
  { d with m_offset := offset }

/-- `Decompressor::want_buffered_pages_removed` (lines 138-140). -/
def Decompressor.want_buffered_pages_removed (d : Decompressor) : Bool :=
  d.m_want_buffered_pages_removed

/-- `Decompressor::set_want_buffered_pages_removed` (lines 142-144). -/
def Decompressor.set_want_buffered_pages_removed (d : Decompressor) (value : Bool) : Decompressor :=
  { d with m_want_buffered_pages_removed := value }

/-- `osmium::io::NoCompressor` (lines 237-289): base subobject, running
byte count `m_file_size` (member-initialized to 0, line 239) and the owned
descriptor `m_fd`. -/
structure NoCompressor where
  toCompressor : Compressor
  m_file_size : Nat := 0
  m_fd : Int
deriving DecidableEq

/-- The `NoCompressor(int fd, fsync sync)` constructor (lines 244-247). -/
def NoCompressor.init (fd : Int) (sync : fsync) : NoCompressor :=
  { toCompressor := { m_fsync := sync }, m_fd := fd }

/-- `NoCompressor::write` (lines 263-266): forward the bytes unchanged to
`reliable_write` on `m_fd`, then add their length to `m_file_size`. -/
def NoCompressor.write (c : NoCompressor) (data : List Nat) : NoCompressor × List IOEvent :=
  ({ c with m_file_size := c.m_file_size + data.length }, [IOEvent.write_ev c.m_fd data])

/-- `NoCompressor::close` (lines 268-283), with the platform environment
made explicit: `env.1` is whether `reliable_fsync` succeeds, `env.2`
whether `reliable_close` succeeds. Mirrors the source order: when
`m_fd >= 0` the descriptor is saved and `m_fd` is set to `-1` FIRST; stdout
(`fd == 1`) is neither synced nor closed; otherwise `reliable_fsync` runs
when `do_fsync()` and then `reliable_close`. The trace holds the primitives
actually invoked before an exception escapes; the `Bool` result is whether
the call returned normally. -/
def NoCompressor.closeE (c : NoCompressor) (env : Bool × Bool) :
    NoCompressor × List IOEvent × Bool :=
  if 0 ≤ c.m_fd then
    let fd := c.m_fd
    let c1 := { c with m_fd := -1 }
    if fd = 1 then
      (c1, [], true)
    else if c.toCompressor.do_fsync then
      if env.1 then
        (c1, [IOEvent.fsync_ev fd, IOEvent.close_ev fd], env.2)
      else
        (c1, [IOEvent.fsync_ev fd], false)
    else
      (c1, [IOEvent.close_ev fd], env.2)
  else
    (c, [], true)

/-- `NoCompressor::close` in the normal environment where every platform
primitive succeeds. -/
def NoCompressor.close (c : NoCompressor) : NoCompressor × List IOEvent :=
  ((c.closeE (true, true)).1, (c.closeE (true, true)).2.1)

/-- `NoCompressor::file_size` (lines 285-287). -/
def NoCompressor.file_size (c : NoCompressor) : Nat := c.m_file_size

/-- A finite sequence of `write` calls, accumulating the platform trace. -/
def NoCompressor.writeSeq (c : NoCompressor) : List (List Nat) → NoCompressor × List IOEvent
  | [] => (c, [])
  | data :: rest =>
      let r1 := NoCompressor.write c data
      let r2 := NoCompressor.writeSeq r1.1 rest
      (r2.1, r1.2 ++ r2.2)

/-- A finite sequence of `close` calls under the given per-call platform
environments (this covers the implicit `close` in `~NoCompressor`,
lines 255-261, which swallows any exception), accumulating the trace. -/
def NoCompressor.closeSeqE (c : NoCompressor) : List (Bool × Bool) → NoCompressor × List IOEvent
  | [] => (c, [])
  | env :: envs =>
      let r1 := NoCompressor.closeE c env
      let r2 := NoCompressor.closeSeqE r1.1 envs
      (r2.1, r1.2.1 ++ r2.2)

/-- `osmium::io::DummyDecompressor` (lines 296-320). -/
structure DummyDecompressor where
  toDecompressor : Decompressor := {}
deriving DecidableEq

/-- `DummyDecompressor::read` (lines 309-311): always the empty chunk. -/
def DummyDecompressor.read (d : DummyDecompressor) : List Nat × DummyDecompressor :=
  ([], d)

/-- `DummyDecompressor::close` (lines 313-314): no-op. -/
def DummyDecompressor.close (d : DummyDecompressor) : DummyDecompressor := d

/-- `DummyDecompressor::is_real` (lines 316-318). -/
def DummyDecompressor.is_real (_ : DummyDecompressor) : Bool := false

/-- `osmium::io::NoDecompressor` (lines 322-389): base subobject, the
member initializers of lines 324-327 (`m_fd = -1`, `m_buffer = nullptr`,
`m_buffer_size = 0`, `m_offset = 0`). `m_buffer` is `some bytes` for a
non-null pointer, where `bytes` is the pointed-to memory. -/
structure NoDecompressor where
  toDecompressor : Decompressor := {}
  m_fd : Int := -1
  m_buffer : Option (List Nat) := Option.none
  m_buffer_size : Nat := 0
  m_offset : Nat := 0
deriving DecidableEq

/-- The `NoDecompressor(int fd)` constructor (lines 331-333). -/
def NoDecompressor.mkFd (fd : Int) : NoDecompressor :=
  { m_fd := fd }

/-- The `NoDecompressor(const char* buffer, size_t size)` constructor
(lines 335-338). -/
def NoDecompressor.mkBuffer (buffer : List Nat) (size : Nat) : NoDecompressor :=
  { m_buffer := some buffer, m_buffer_size := size }

/-- `NoDecompressor::read` (lines 354-376). The branch on `m_buffer`
computes the chunk, the successor state and the platform trace; the common
tail performs `m_offset += buffer.size(); set_offset(m_offset);`.
`delivered` is the oracle for what `reliable_read(m_fd, ..., 1 MiB)`
delivers in the descriptor branch (at most `input_buffer_size` bytes); the
buffer branch performs no platform call and ignores it. -/
def NoDecompressor.read (d : NoDecompressor) (delivered : List Nat) :
    List Nat × NoDecompressor × List IOEvent :=
  let step : List Nat × NoDecompressor × List IOEvent :=
    match d.m_buffer with
    | some contents =>
        if d.m_buffer_size ≠ 0 then
          (contents.take d.m_buffer_size, { d with m_buffer_size := 0 }, [])
        else
          ([], d, [])
    | Option.none =>
        (delivered, d,
          (if d.toDecompressor.want_buffered_pages_removed then
              [IOEvent.remove_buffered_pages_ev d.m_fd (some d.m_offset)]
            else []) ++
          [IOEvent.read_ev d.m_fd Decompressor.input_buffer_size delivered.length])
  let buffer := step.1
  let d1 := step.2.1
  let off := d1.m_offset + buffer.length
  (buffer, { d1 with m_offset := off, toDecompressor := d1.toDecompressor.set_offset off },
    step.2.2)

/-- `NoDecompressor::close` (lines 378-387). -/
def NoDecompressor.close (d : NoDecompressor) : NoDecompressor × List IOEvent :=
  if 0 ≤ d.m_fd then
    ({ d with m_fd := -1 },
      (if d.toDecompressor.want_buffered_pages_removed then
          [IOEvent.remove_buffered_pages_ev d.m_fd Option.none]
        else []) ++
      [IOEvent.close_ev d.m_fd])
  else
    (d, [])

/-- A finite sequence of `read` calls fed by a list of oracle inputs;
returns the chunks in order, the final state and the whole trace. -/
def NoDecompressor.readSeq (d : NoDecompressor) :
    List (List Nat) → List (List Nat) × NoDecompressor × List IOEvent
  | [] => ([], d, [])
  | del :: dels =>
      let r1 := NoDecompressor.read d del
      let r2 := NoDecompressor.readSeq r1.2.1 dels
      (r1.1 :: r2.1, r2.2.1, r1.2.2 ++ r2.2.2)

/-- The value of the base-class `offset()` counter observed right after
each `read` call of a sequence. -/
def NoDecompressor.offsetsAfter (d : NoDecompressor) : List (List Nat) → List Nat
  | [] => []
  | del :: dels =>
      let r := NoDecompressor.read d del
      r.2.1.toDecompressor.m_offset :: NoDecompressor.offsetsAfter r.2.1 dels

/-- A `Compressor*` returned by a factory callback; the only concrete
compressor in this file is `NoCompressor`. -/
inductive CompressorPtr where
  | mkNo (c : NoCompressor)
deriving DecidableEq

/-- A `Decompressor*` returned by a factory callback; the concrete
decompressors in this file are `NoDecompressor` and `DummyDecompressor`. -/
inductive DecompressorPtr where
  | mkNo (d : NoDecompressor)
  | mkDummy (d : DummyDecompressor)
deriving DecidableEq

/-- Virtual-dispatch `file_size()` through the base subobject. -/
def DecompressorPtr.file_size : DecompressorPtr → Nat
  | .mkNo d => d.toDecompressor.file_size
  | .mkDummy d => d.toDecompressor.file_size

/-- Virtual-dispatch `set_file_size()` through the base subobject. -/
def DecompressorPtr.set_file_size : DecompressorPtr → Nat → DecompressorPtr
  | .mkNo d, size => .mkNo { d with toDecompressor := d.toDecompressor.set_file_size size }
  | .mkDummy d, size => .mkDummy { d with toDecompressor := d.toDecompressor.set_file_size size }

/-- `CompressionFactory::create_compressor_type` (line 159), instantiated
at the argument types `(int, fsync)` used by `create_compressor`. -/
def create_compressor_type : Type := Int → fsync → CompressorPtr

/-- `CompressionFactory::create_decompressor_type_fd` (line 160). -/
def create_decompressor_type_fd : Type := Int → DecompressorPtr

/-- `CompressionFactory::create_decompressor_type_buffer` (line 161). -/
def create_decompressor_type_buffer : Type := List Nat → Nat → DecompressorPtr

/-- `CompressionFactory::callbacks_type` (lines 165-167): the constructor
triple. -/
def callbacks_type : Type :=
  create_compressor_type × create_decompressor_type_fd × create_decompressor_type_buffer

/-- `CompressionFactory::compression_map_type` (line 169): a `std::map`
from identifier to value, modelled as an association list with unique keys
(only its lookup/insert behavior matters). Generic in the value type. -/
abbrev compression_map (κ : Type) : Type := List (file_compression × κ)

/-- `std::map::find`, as lookup of the first binding of a key. -/
def map_find {κ : Type} : compression_map κ → file_compression → Option κ
  | [], _ => Option.none
  | (k, v) :: rest, key => if k = key then some v else map_find rest key

/-- `std::map::insert`: inserts only when the key is absent; the `Bool` is
the `.second` of the returned pair (whether the insertion happened). -/
def map_insert {κ : Type} (m : compression_map κ) (key : file_compression) (v : κ) :
    compression_map κ × Bool :=
  match map_find m key with
  | some _ => (m, false)
  | Option.none => (m ++ [(key, v)], true)

/-- The diagnostic built in `find_callbacks` (lines 182-184):
`"Support for compression '" + as_string(compression) + "' not compiled
into this binary"`. -/
def unsupported_error_message (compression : file_compression) : String :=
  "Support for compression \x27" ++ as_string compression ++ "\x27 not compiled into this binary"

/-- `CompressionFactory::find_callbacks` (lines 175-186): look the
identifier up; throw `unsupported_file_format_error` with the diagnostic
naming the identifier when absent. -/
def find_callbacks {κ : Type} (m : compression_map κ) (compression : file_compression) :
    Except io_error κ :=
  match map_find m compression with
  | some cb => Except.ok cb
  | Option.none =>
      Except.error (io_error.unsupported_file_format_error (unsupported_error_message compression))

/-- `CompressionFactory::register_compression` (lines 203-215): build the
triple and insert it; the result is whether the insertion happened. -/
def register_compression (m : compression_map callbacks_type)
    (compression : file_compression)
    (create_compressor : create_compressor_type)
    (create_decompressor_fd : create_decompressor_type_fd)
    (create_decompressor_buffer : create_decompressor_type_buffer) :
    compression_map callbacks_type × Bool :=
  map_insert m compression (create_compressor, create_decompressor_fd, create_decompressor_buffer)

/-- `CompressionFactory::create_compressor` (lines 217-221): find the
callbacks (throwing when absent) and invoke the first one. -/
def create_compressor (m : compression_map callbacks_type)
    (compression : file_compression) (fd : Int) (sync : fsync) :
    Except io_error CompressorPtr :=
  (find_callbacks m compression).map (fun callbacks => callbacks.1 fd sync)

/-- `CompressionFactory::create_decompressor` from a descriptor
(lines 223-228): find the callbacks, invoke the second one, then record
the source's size with `p->set_file_size(osmium::file_size(fd))`.
`file_size_of` is the oracle for the platform file-size query
`osmium::file_size` (from `osmium/util/file.hpp`, not under `src/`). -/
def create_decompressor_fd (file_size_of : Int → Nat)
    (m : compression_map callbacks_type)
    (compression : file_compression) (fd : Int) :
    Except io_error DecompressorPtr :=
  (find_callbacks m compression).map
    (fun callbacks => DecompressorPtr.set_file_size (callbacks.2.1 fd) (file_size_of fd))

/-- `CompressionFactory::create_decompressor` from a buffer
(lines 230-233): find the callbacks and invoke the third one; the result
is returned as the callback made it. -/
def create_decompressor_buffer (m : compression_map callbacks_type)
    (compression : file_compression) (buffer : List Nat) (size : Nat) :
    Except io_error DecompressorPtr :=
  (find_callbacks m compression).map (fun callbacks => callbacks.2.2 buffer size)

/-- The constructor triple registered for `file_compression::none`
(lines 395-399). -/
def no_compression_callbacks : callbacks_type :=
  (fun fd sync => CompressorPtr.mkNo (NoCompressor.init fd sync),
   fun fd => DecompressorPtr.mkNo (NoDecompressor.mkFd fd),
   fun buffer size => DecompressorPtr.mkNo (NoDecompressor.mkBuffer buffer size))

/-- The registry after the built-in startup registration
`registered_no_compression` (lines 395-399) has run on the empty map. -/
def default_registry : compression_map callbacks_type :=
  (register_compression [] file_compression.none
    no_compression_callbacks.1 no_compression_callbacks.2.1 no_compression_callbacks.2.2).1

/-- The C++ declaration-level record of a class's special member
functions: whether each of copy constructor, copy assignment, move
constructor and move assignment is declared `= delete`. -/
structure SpecialMembers where
  copy_ctor_deleted : Bool
  copy_assign_deleted : Bool
  move_ctor_deleted : Bool
  move_assign_deleted : Bool
deriving DecidableEq

/-- Lines 249-253: `NoCompressor` deletes copy constructor, copy
assignment, move constructor and move assignment. -/
def NoCompressor.specialMembers : SpecialMembers :=
  { copy_ctor_deleted := true, copy_assign_deleted := true,
    move_ctor_deleted := true, move_assign_deleted := true }

/-- Lines 340-344: `NoDecompressor` deletes all four. -/
def NoDecompressor.specialMembers : SpecialMembers :=
  { copy_ctor_deleted := true, copy_assign_deleted := true,
    move_ctor_deleted := true, move_assign_deleted := true }

/-- Lines 106-110: the `Decompressor` base class deletes all four. -/
def Decompressor.specialMembers : SpecialMembers :=
  { copy_ctor_deleted := true, copy_assign_deleted := true,
    move_ctor_deleted := true, move_assign_deleted := true }

/-- Lines 73-77: the `Compressor` base class defaults (does not delete)
all four. -/
def Compressor.specialMembers : SpecialMembers :=
  { copy_ctor_deleted := false, copy_assign_deleted := false,
    move_ctor_deleted := false, move_assign_deleted := false }

/-- The ownership discipline claim C9 asserts of an owning class: copying
is deleted but moving is available (move-only). -/
def moveOnlyOwnership (s : SpecialMembers) : Prop :=
  s.copy_ctor_deleted = true ∧ s.copy_assign_deleted = true ∧
  s.move_ctor_deleted = false ∧ s.move_assign_deleted = false

/-- Sum of the lengths of a list of byte chunks. -/
def sumLens (l : List (List Nat)) : Nat := (l.map List.length).sum

/-- Running partial sums starting from `a`. -/
def runningSums (a : Nat) : List Nat → List Nat
  | [] => []
  | n :: ns => (a + n) :: runningSums (a + n) ns

/-! ### Helper lemmas (shared) -/

theorem NoCompressor.closeE_of_neg (c : NoCompressor) (env : Bool × Bool) (h : c.m_fd < 0) :
    NoCompressor.closeE c env = (c, [], true) := by
  unfold NoCompressor.closeE
  rw [if_neg (by omega)]

theorem NoCompressor.closeE_fd_neg (c : NoCompressor) (env : Bool × Bool) :
    ((NoCompressor.closeE c env).1).m_fd < 0 := by
  unfold NoCompressor.closeE
  by_cases h0 : 0 ≤ c.m_fd
  · by_cases h1 : c.m_fd = 1 <;> by_cases h2 : c.toCompressor.do_fsync <;>
      by_cases h3 : env.1 <;> simp [h0, h1, h2, h3]
  · simp [h0]
    omega

theorem NoCompressor.closeE_file_size (c : NoCompressor) (env : Bool × Bool) :
    ((NoCompressor.closeE c env).1).m_file_size = c.m_file_size := by
  unfold NoCompressor.closeE
  by_cases h0 : 0 ≤ c.m_fd
  · by_cases h1 : c.m_fd = 1 <;> by_cases h2 : c.toCompressor.do_fsync <;>
      by_cases h3 : env.1 <;> simp [h0, h1, h2, h3]
  · simp [h0]

theorem NoCompressor.closeE_count (c : NoCompressor) (env : Bool × Bool) (fd : Int) :
    countEv (IOEvent.fsync_ev fd) (NoCompressor.closeE c env).2.1 ≤ 1 ∧
    countEv (IOEvent.close_ev fd) (NoCompressor.closeE c env).2.1 ≤ 1 := by
  unfold NoCompressor.closeE
  by_cases h0 : 0 ≤ c.m_fd
  · by_cases h1 : c.m_fd = 1 <;> by_cases h2 : c.toCompressor.do_fsync <;>
      by_cases h3 : env.1 <;> simp [h0, h1, h2, h3, countEv] <;> split_ifs <;> omega
  · simp [h0, countEv]

theorem NoCompressor.closeSeqE_of_neg (c : NoCompressor) (envs : List (Bool × Bool))
    (h : c.m_fd < 0) :
    NoCompressor.closeSeqE c envs = (c, []) := by
  induction envs with
  | nil => rfl
  | cons e es ih => simp [NoCompressor.closeSeqE, NoCompressor.closeE_of_neg _ _ h, ih]

theorem NoCompressor.writeSeq_state (c : NoCompressor) (chunks : List (List Nat)) :
    NoCompressor.writeSeq c chunks =
      ({ c with m_file_size := c.m_file_size + sumLens chunks },
        chunks.map (fun data => IOEvent.write_ev c.m_fd data)) := by
  induction chunks generalizing c with
  | nil => rfl
  | cons d ds ih =>
      simp [NoCompressor.writeSeq, NoCompressor.write, ih, sumLens, Nat.add_assoc]

theorem NoDecompressor.read_fd (d : NoDecompressor) (delivered : List Nat)
    (hbuf : d.m_buffer = Option.none) :
    NoDecompressor.read d delivered =
      (delivered,
        { d with
          m_offset := d.m_offset + delivered.length,
          toDecompressor := d.toDecompressor.set_offset (d.m_offset + delivered.length) },
        (if d.toDecompressor.want_buffered_pages_removed then
            [IOEvent.remove_buffered_pages_ev d.m_fd (some d.m_offset)]
          else []) ++
        [IOEvent.read_ev d.m_fd Decompressor.input_buffer_size delivered.length]) := by
  obtain ⟨base, fd, buffer, size, off⟩ := d
  dsimp only at hbuf ⊢
  subst hbuf
  rfl

theorem NoDecompressor.read_buffer_nonzero (d : NoDecompressor) (contents delivered : List Nat)
    (hbuf : d.m_buffer = some contents) (hsz : d.m_buffer_size ≠ 0) :
    NoDecompressor.read d delivered =
      (contents.take d.m_buffer_size,
        { d with
          m_buffer_size := 0,
          m_offset := d.m_offset + (contents.take d.m_buffer_size).length,
          toDecompressor := d.toDecompressor.set_offset
            (d.m_offset + (contents.take d.m_buffer_size).length) },
        []) := by
  obtain ⟨base, fd, buffer, size, off⟩ := d
  dsimp only at hbuf hsz ⊢
  subst hbuf
  simp [NoDecompressor.read, hsz]

theorem NoDecompressor.read_buffer_zero (d : NoDecompressor) (contents delivered : List Nat)
    (hbuf : d.m_buffer = some contents) (hsz : d.m_buffer_size = 0) :
    NoDecompressor.read d delivered =
      ([],
        { d with
          m_offset := d.m_offset,
          toDecompressor := d.toDecompressor.set_offset d.m_offset },
        []) := by
  obtain ⟨base, fd, buffer, size, off⟩ := d
  dsimp only at hbuf hsz ⊢
  subst hbuf
  subst hsz
  rfl

theorem NoDecompressor.read_drained (d : NoDecompressor) (contents delivered : List Nat)
    (hbuf : d.m_buffer = some contents) (hsz : d.m_buffer_size = 0)
    (hsync : d.toDecompressor.m_offset = d.m_offset) :
    NoDecompressor.read d delivered = ([], d, []) := by
  rw [NoDecompressor.read_buffer_zero d contents delivered hbuf hsz]
  have hs : d.toDecompressor.set_offset d.m_offset = d.toDecompressor := by
    unfold Decompressor.set_offset
    rw [← hsync]
  rw [hs]

theorem NoDecompressor.readSeq_drained (d : NoDecompressor) (contents : List Nat)
    (dels : List (List Nat))
    (hbuf : d.m_buffer = some contents) (hsz : d.m_buffer_size = 0)
    (hsync : d.toDecompressor.m_offset = d.m_offset) :
    NoDecompressor.readSeq d dels = (List.replicate dels.length [], d, []) := by
  induction dels with
  | nil => rfl
  | cons del rest ih =>
      simp [NoDecompressor.readSeq,
        NoDecompressor.read_drained d contents del hbuf hsz hsync, ih, List.replicate_succ]

theorem NoDecompressor.offsetsAfter_drained (d : NoDecompressor) (contents : List Nat)
    (dels : List (List Nat))
    (hbuf : d.m_buffer = some contents) (hsz : d.m_buffer_size = 0)
    (hsync : d.toDecompressor.m_offset = d.m_offset) :
    NoDecompressor.offsetsAfter d dels =
      List.replicate dels.length d.toDecompressor.m_offset := by
  induction dels with
  | nil => rfl
  | cons del rest ih =>
      simp [NoDecompressor.offsetsAfter,
        NoDecompressor.read_drained d contents del hbuf hsz hsync, ih, List.replicate_succ]

theorem NoDecompressor.read_offsets (d : NoDecompressor) (del : List Nat) :
    (NoDecompressor.read d del).2.1.m_offset =
      d.m_offset + (NoDecompressor.read d del).1.length ∧
    (NoDecompressor.read d del).2.1.toDecompressor.m_offset =
      d.m_offset + (NoDecompressor.read d del).1.length ∧
    (NoDecompressor.read d del).2.1.toDecompressor.m_file_size =
      d.toDecompressor.m_file_size := by
  rcases hbuf : d.m_buffer with _ | contents
  · rw [NoDecompressor.read_fd d del hbuf]
    exact ⟨rfl, rfl, rfl⟩
  · by_cases hsz : d.m_buffer_size = 0
    · rw [NoDecompressor.read_buffer_zero d contents del hbuf hsz]
      exact ⟨rfl, rfl, rfl⟩
    · rw [NoDecompressor.read_buffer_nonzero d contents del hbuf hsz]
      exact ⟨rfl, rfl, rfl⟩

theorem NoDecompressor.read_fd_chunk (d : NoDecompressor) (del : List Nat)
    (hbuf : d.m_buffer = Option.none) :
    (NoDecompressor.read d del).1 = del ∧
    (NoDecompressor.read d del).2.1.m_buffer = Option.none := by
  rw [NoDecompressor.read_fd d del hbuf]
  exact ⟨rfl, hbuf⟩

theorem NoDecompressor.offsetsAfter_spec (d : NoDecompressor) (dels : List (List Nat)) :
    NoDecompressor.offsetsAfter d dels =
      runningSums d.m_offset ((NoDecompressor.readSeq d dels).1.map List.length) := by
  induction dels generalizing d with
  | nil => rfl
  | cons del rest ih =>
      have h := NoDecompressor.read_offsets d del
      simp only [NoDecompressor.offsetsAfter, NoDecompressor.readSeq, List.map_cons,
        runningSums]
      rw [h.2.1, ih (NoDecompressor.read d del).2.1, h.1]

theorem NoDecompressor.readSeq_final (d : NoDecompressor) (dels : List (List Nat)) :
    (NoDecompressor.readSeq d dels).2.1.m_offset =
      d.m_offset + sumLens (NoDecompressor.readSeq d dels).1 ∧
    (NoDecompressor.readSeq d dels).2.1.toDecompressor.m_file_size =
      d.toDecompressor.m_file_size ∧
    (d.m_buffer = Option.none → (NoDecompressor.readSeq d dels).1 = dels) ∧
    (d.toDecompressor.m_offset = d.m_offset →
      (NoDecompressor.readSeq d dels).2.1.toDecompressor.m_offset =
        d.m_offset + sumLens (NoDecompressor.readSeq d dels).1) := by
  induction dels generalizing d with
  | nil =>
      exact ⟨by simp [NoDecompressor.readSeq, sumLens], rfl, fun _ => rfl,
        fun h => by simp [NoDecompressor.readSeq, sumLens, h]⟩
  | cons del rest ih =>
      have h := NoDecompressor.read_offsets d del
      have ht := ih (NoDecompressor.read d del).2.1
      refine ⟨?_, ?_, ?_, ?_⟩
      · simp only [NoDecompressor.readSeq, sumLens, List.map_cons, List.sum_cons]
        rw [ht.1, h.1]
        simp [sumLens, Nat.add_assoc]
      · simp only [NoDecompressor.readSeq]
        rw [ht.2.1, h.2.2]
      · intro hbuf
        have hc := NoDecompressor.read_fd_chunk d del hbuf
        simp only [NoDecompressor.readSeq]
        rw [hc.1, ht.2.2.1 hc.2]
      · intro _
        have hs2 : (NoDecompressor.read d del).2.1.toDecompressor.m_offset =
            (NoDecompressor.read d del).2.1.m_offset := by rw [h.1, h.2.1]
        simp only [NoDecompressor.readSeq, sumLens, List.map_cons, List.sum_cons]
        rw [ht.2.2.2 hs2, h.1]
        simp [sumLens, Nat.add_assoc]

theorem runningSums_chain (a : Nat) (ns : List Nat) :
    List.Chain' (fun x y => x ≤ y) (a :: runningSums a ns) := by
  induction ns generalizing a with
  | nil => simp [runningSums]
  | cons n ns ih =>
      rw [runningSums]
      exact List.chain'_cons.mpr ⟨Nat.le_add_right a n, ih (a + n)⟩

theorem map_find_append_self {κ : Type} (m : compression_map κ) (key : file_compression)
    (v : κ) (h : map_find m key = Option.none) :
    map_find (m ++ [(key, v)]) key = some v := by
  induction m with
  | nil => simp [map_find]
  | cons p rest ih =>
      obtain ⟨k, w⟩ := p
      by_cases hk : k = key
      · simp [map_find, hk] at h
      · simp only [List.cons_append, map_find, if_neg hk] at h ⊢
        exact ih h

theorem map_find_append_of_some {κ : Type} (m l : compression_map κ) (key : file_compression)
    (v : κ) (h : map_find m key = some v) :
    map_find (m ++ l) key = some v := by
  induction m with
  | nil => simp [map_find] at h
  | cons p rest ih =>
      obtain ⟨k, w⟩ := p
      by_cases hk : k = key
      · simp only [map_find, if_pos hk] at h
        simp only [List.cons_append, map_find, if_pos hk]
        exact h
      · simp only [map_find, if_neg hk] at h
        simp only [List.cons_append, map_find, if_neg hk]
        exact ih h

theorem DecompressorPtr.file_size_set (p : DecompressorPtr) (s : Nat) :
    (DecompressorPtr.set_file_size p s).file_size = s := by
  cases p <;> rfl

/-! ### C3: NoCompressor::close contract -/

/-- C3: for every `NoCompressor` owning a valid descriptor, `close()` is
idempotent (a second call changes nothing and performs no platform call);
when the descriptor is the stdout sentinel `1`, the first `close()`
performs neither `fsync` nor `close`; otherwise the trace is an `fsync`
exactly when the sync policy is `yes`, followed by the `close` of the
descriptor. -/
theorem noCompressor_close_contract (c : NoCompressor) (h : 0 ≤ c.m_fd) :
    NoCompressor.close (NoCompressor.close c).1 = ((NoCompressor.close c).1, []) ∧
    (c.m_fd = 1 → (NoCompressor.close c).2 = []) ∧
    (c.m_fd ≠ 1 →
      (NoCompressor.close c).2 =
        (if c.toCompressor.do_fsync then [IOEvent.fsync_ev c.m_fd] else []) ++
          [IOEvent.close_ev c.m_fd] ∧
      (IOEvent.fsync_ev c.m_fd ∈ (NoCompressor.close c).2 ↔
        c.toCompressor.m_fsync = fsync.yes)) := by
  have hneg : ((NoCompressor.close c).1).m_fd < 0 := NoCompressor.closeE_fd_neg c (true, true)
  refine ⟨?_, ?_, ?_⟩
  · have h2 := NoCompressor.closeE_of_neg ((NoCompressor.close c).1) (true, true) hneg
    show ((((NoCompressor.close c).1).closeE (true, true)).1,
        (((NoCompressor.close c).1).closeE (true, true)).2.1) = ((NoCompressor.close c).1, [])
    rw [h2]
  · intro h1
    simp [NoCompressor.close, NoCompressor.closeE, h, h1]
  · intro h1
    rcases hf : c.toCompressor.m_fsync with _ | _
    · have hd : c.toCompressor.do_fsync = false := by
        unfold Compressor.do_fsync; rw [hf]; decide
      refine ⟨?_, ?_⟩ <;>
        simp [NoCompressor.close, NoCompressor.closeE, h, h1, hd, hf]
    · have hd : c.toCompressor.do_fsync = true := by
        unfold Compressor.do_fsync; rw [hf]; decide
      refine ⟨?_, ?_⟩ <;>
        simp [NoCompressor.close, NoCompressor.closeE, h, h1, hd, hf]

/-- Witness for C3 at the concrete instances `NoCompressor(3, yes)`. -/
theorem noCompressor_close_contract_witness :
    NoCompressor.close
        (NoCompressor.close (NoCompressor.init 3 fsync.yes)).1 =
      ((NoCompressor.close (NoCompressor.init 3 fsync.yes)).1, []) ∧
    ((3 : Int) = 1 → (NoCompressor.close (NoCompressor.init 3 fsync.yes)).2 = []) ∧
    ((3 : Int) ≠ 1 →
      (NoCompressor.close (NoCompressor.init 3 fsync.yes)).2 =
        (if (NoCompressor.init 3 fsync.yes).toCompressor.do_fsync then
            [IOEvent.fsync_ev 3]
          else []) ++ [IOEvent.close_ev 3] ∧
      (IOEvent.fsync_ev 3 ∈ (NoCompressor.close (NoCompressor.init 3 fsync.yes)).2 ↔
        (NoCompressor.init 3 fsync.yes).toCompressor.m_fsync = fsync.yes)) :=
  noCompressor_close_contract (NoCompressor.init 3 fsync.yes) (by decide)

/-! ### C4: NoCompressor::write forwards bytes and counts them -/

/-- C4: starting from a freshly constructed `NoCompressor`, every `write`
forwards its bytes unchanged to the platform write primitive and adds the
chunk length to the byte counter; after a sequence of writes `file_size()`
is the sum of the chunk lengths, and it keeps that value after `close()`
and after a second `close()`. -/
theorem noCompressor_write_forwards_and_counts (fd : Int) (sync : fsync)
    (chunks : List (List Nat)) :
    (NoCompressor.writeSeq (NoCompressor.init fd sync) chunks).2 =
      chunks.map (fun data => IOEvent.write_ev fd data) ∧
    (∀ (c : NoCompressor) (data : List Nat),
      (NoCompressor.write c data).1.m_file_size = c.m_file_size + data.length ∧
      (NoCompressor.write c data).2 = [IOEvent.write_ev c.m_fd data]) ∧
    NoCompressor.file_size (NoCompressor.writeSeq (NoCompressor.init fd sync) chunks).1 =
      sumLens chunks ∧
    NoCompressor.file_size
        (NoCompressor.close
          (NoCompressor.writeSeq (NoCompressor.init fd sync) chunks).1).1 =
      sumLens chunks ∧
    NoCompressor.file_size
        (NoCompressor.close
          (NoCompressor.close
            (NoCompressor.writeSeq (NoCompressor.init fd sync) chunks).1).1).1 =
      sumLens chunks := by
  have hw := NoCompressor.writeSeq_state (NoCompressor.init fd sync) chunks
  have hfs : (NoCompressor.writeSeq (NoCompressor.init fd sync) chunks).1.m_file_size =
      sumLens chunks := by
    rw [hw]; simp [NoCompressor.init]
  refine ⟨by rw [hw]; rfl, fun c data => ⟨rfl, rfl⟩, hfs, ?_, ?_⟩
  · show ((NoCompressor.writeSeq (NoCompressor.init fd sync) chunks).1.closeE
        (true, true)).1.m_file_size = sumLens chunks
    rw [NoCompressor.closeE_file_size]
    exact hfs
  · show ((((NoCompressor.writeSeq (NoCompressor.init fd sync) chunks).1.closeE
        (true, true)).1.closeE (true, true)).1).m_file_size = sumLens chunks
    rw [NoCompressor.closeE_file_size, NoCompressor.closeE_file_size]
    exact hfs

/-! ### C10: the platform fsync/close primitives run at most once per
NoCompressor lifetime -/

/-- C10: after any `close()` call the instance no longer holds a valid
descriptor (the release is recorded before the platform primitives run,
so it happens even when `fsync`/`close` raises, as the environment pair
makes explicit); consequently the whole platform trace of any sequence of
`close()` calls — the destructor's implicit one included — is the first
call's trace, which invokes `fsync` at most once and `close` at most
once. -/
theorem noCompressor_close_at_most_once (c : NoCompressor) (env : Bool × Bool)
    (envs : List (Bool × Bool)) (fd : Int) :
    ((NoCompressor.closeE c env).1).m_fd < 0 ∧
    (NoCompressor.closeSeqE c (env :: envs)).2 = (NoCompressor.closeE c env).2.1 ∧
    countEv (IOEvent.fsync_ev fd) (NoCompressor.closeSeqE c (env :: envs)).2 ≤ 1 ∧
    countEv (IOEvent.close_ev fd) (NoCompressor.closeSeqE c (env :: envs)).2 ≤ 1 := by
  have htrace : (NoCompressor.closeSeqE c (env :: envs)).2 = (NoCompressor.closeE c env).2.1 := by
    simp [NoCompressor.closeSeqE,
      NoCompressor.closeSeqE_of_neg _ envs (NoCompressor.closeE_fd_neg c env)]
  refine ⟨NoCompressor.closeE_fd_neg c env, htrace, ?_, ?_⟩ <;> rw [htrace]
  · exact (NoCompressor.closeE_count c env fd).1
  · exact (NoCompressor.closeE_count c env fd).2

/-! ### C5: buffer-backed NoDecompressor reads -/

/-- C5: a `NoDecompressor` constructed over a buffer of length `n` returns
the whole buffer as one chunk on the first `read()` and the empty chunk on
every subsequent `read()`; the base `offset()` counter equals `n` right
after the first read and stays `n` after every later read. -/
theorem noDecompressor_buffer_reads (b del1 : List Nat) (dels : List (List Nat)) :
    (NoDecompressor.readSeq (NoDecompressor.mkBuffer b b.length) (del1 :: dels)).1 =
      b :: List.replicate dels.length [] ∧
    NoDecompressor.offsetsAfter (NoDecompressor.mkBuffer b b.length) (del1 :: dels) =
      List.replicate (dels.length + 1) b.length := by
  by_cases hb : b = []
  · subst hb
    have h1 := NoDecompressor.readSeq_drained (NoDecompressor.mkBuffer [] 0) []
      (del1 :: dels) rfl rfl rfl
    have h2 := NoDecompressor.offsetsAfter_drained (NoDecompressor.mkBuffer [] 0) []
      (del1 :: dels) rfl rfl rfl
    constructor
    · show (NoDecompressor.readSeq (NoDecompressor.mkBuffer [] 0) (del1 :: dels)).1 =
        [] :: List.replicate dels.length []
      rw [h1]
      simp [List.replicate_succ]
    · show NoDecompressor.offsetsAfter (NoDecompressor.mkBuffer [] 0) (del1 :: dels) =
        List.replicate (dels.length + 1) 0
      rw [h2]
      rfl
  · have hsz : (NoDecompressor.mkBuffer b b.length).m_buffer_size ≠ 0 := by
      simpa [NoDecompressor.mkBuffer] using hb
    have hr1 : NoDecompressor.read (NoDecompressor.mkBuffer b b.length) del1 =
        (b,
          { toDecompressor := { m_offset := b.length },
            m_buffer := some b,
            m_offset := b.length },
          []) := by
      rw [NoDecompressor.read_buffer_nonzero (NoDecompressor.mkBuffer b b.length) b del1
        rfl hsz]
      simp [NoDecompressor.mkBuffer, Decompressor.set_offset]
    have h2 := NoDecompressor.readSeq_drained
      { toDecompressor := { m_offset := b.length }, m_buffer := some b, m_offset := b.length }
      b dels rfl rfl rfl
    have h3 := NoDecompressor.offsetsAfter_drained
      { toDecompressor := { m_offset := b.length }, m_buffer := some b, m_offset := b.length }
      b dels rfl rfl rfl
    constructor
    · simp only [NoDecompressor.readSeq, hr1, h2]
    · simp only [NoDecompressor.offsetsAfter, hr1, h3]
      simp [List.replicate_succ]

/-! ### C6: descriptor-backed NoDecompressor reads -/

/-- C6: a descriptor-backed `NoDecompressor.read` asks the platform for
exactly `input_buffer_size = 1 MiB` bytes and returns exactly what the
platform delivered (`delivered`, constrained to at most 1 MiB); when the
eviction flag is set, the page-eviction hint for the already-consumed
prefix is issued before the platform read; the base offset advances by the
delivered length (so an empty source leaves it unchanged). -/
theorem noDecompressor_fd_read (d : NoDecompressor) (delivered : List Nat)
    (hbuf : d.m_buffer = Option.none)
    (hlen : delivered.length ≤ Decompressor.input_buffer_size) :
    (NoDecompressor.read d delivered).1 = delivered ∧
    (NoDecompressor.read d delivered).2.2 =
      (if d.toDecompressor.want_buffered_pages_removed then
          [IOEvent.remove_buffered_pages_ev d.m_fd (some d.m_offset)]
        else []) ++
      [IOEvent.read_ev d.m_fd Decompressor.input_buffer_size delivered.length] ∧
    Decompressor.input_buffer_size = 1024 * 1024 ∧
    (NoDecompressor.read d delivered).2.1.toDecompressor.m_offset =
      d.m_offset + delivered.length := by
  rw [NoDecompressor.read_fd d delivered hbuf]
  exact ⟨rfl, rfl, rfl, rfl⟩

/-- Witness for C6: a descriptor-backed instance with the eviction flag
set, delivered two bytes; and an empty source whose first read returns the
empty chunk with the offset staying 0. -/
theorem noDecompressor_fd_read_witness :
    (NoDecompressor.read
        { NoDecompressor.mkFd 3 with
          toDecompressor :=
            Decompressor.set_want_buffered_pages_removed
              (NoDecompressor.mkFd 3).toDecompressor true }
        [7, 8]).1 = [7, 8] ∧
    (NoDecompressor.read (NoDecompressor.mkFd 4) []).1 = [] ∧
    (NoDecompressor.read (NoDecompressor.mkFd 4) []).2.1.toDecompressor.m_offset = 0 :=
  ⟨(noDecompressor_fd_read
      { NoDecompressor.mkFd 3 with
        toDecompressor :=
          Decompressor.set_want_buffered_pages_removed
            (NoDecompressor.mkFd 3).toDecompressor true }
      [7, 8] rfl (by decide)).1,
   (noDecompressor_fd_read (NoDecompressor.mkFd 4) [] rfl (by decide)).1,
   (noDecompressor_fd_read (NoDecompressor.mkFd 4) [] rfl (by decide)).2.2.2⟩

/-! ### C7: offset accounting (corrected) -/

/-- Counterexample to C7 as stated: its final clause says `offset()` equals
`file_size()` exactly when end-of-stream (the first empty read result) is
reached. On a descriptor-backed instance with recorded size 4 whose first
`read()` delivers all 4 bytes, `offset()` already equals `file_size()`
although no empty chunk has been returned yet, so the biconditional
fails. -/
theorem noDecompressor_eos_iff_counterexample :
    ¬ (((NoDecompressor.read
          { NoDecompressor.mkFd 0 with
            toDecompressor :=
              Decompressor.set_file_size (NoDecompressor.mkFd 0).toDecompressor 4 }
          [9, 9, 9, 9]).2.1.toDecompressor.m_offset =
        (NoDecompressor.read
          { NoDecompressor.mkFd 0 with
            toDecompressor :=
              Decompressor.set_file_size (NoDecompressor.mkFd 0).toDecompressor 4 }
          [9, 9, 9, 9]).2.1.toDecompressor.m_file_size) ↔
      [] ∈ [(NoDecompressor.read
          { NoDecompressor.mkFd 0 with
            toDecompressor :=
              Decompressor.set_file_size (NoDecompressor.mkFd 0).toDecompressor 4 }
          [9, 9, 9, 9]).1]) := by
  decide

/-- C7 (amended): for every fresh `NoDecompressor` (buffer- or
descriptor-backed), after each `read()` the base `offset()` equals the sum
of the lengths of the chunks returned so far, so the observed offsets are
non-decreasing; and for a descriptor-backed instance whose recorded source
size equals the total number of bytes the platform delivers, the final
offset equals `file_size()` — in particular it has that value at and after
the first empty read result (it may already reach it when the last data
chunk is returned, before any empty result). -/
theorem noDecompressor_offset_invariant (d : NoDecompressor) (dels : List (List Nat))
    (hsync : d.toDecompressor.m_offset = d.m_offset) (h0 : d.m_offset = 0) :
    NoDecompressor.offsetsAfter d dels =
      runningSums 0 ((NoDecompressor.readSeq d dels).1.map List.length) ∧
    List.Chain' (fun x y => x ≤ y) (0 :: NoDecompressor.offsetsAfter d dels) ∧
    (NoDecompressor.readSeq d dels).2.1.toDecompressor.m_offset =
      sumLens (NoDecompressor.readSeq d dels).1 ∧
    (d.m_buffer = Option.none → sumLens dels = d.toDecompressor.m_file_size →
      (NoDecompressor.readSeq d dels).2.1.toDecompressor.m_offset =
        (NoDecompressor.readSeq d dels).2.1.toDecompressor.m_file_size) := by
  have hA := NoDecompressor.offsetsAfter_spec d dels
  have hB := NoDecompressor.readSeq_final d dels
  have hfin : (NoDecompressor.readSeq d dels).2.1.toDecompressor.m_offset =
      sumLens (NoDecompressor.readSeq d dels).1 := by
    rw [hB.2.2.2 hsync, h0, Nat.zero_add]
  refine ⟨by rw [hA, h0], ?_, hfin, ?_⟩
  · rw [hA, h0]
    exact runningSums_chain 0 _
  · intro hbuf hfs
    rw [hfin, hB.2.2.1 hbuf, hB.2.1, ← hfs]

/-- Witness for C7 (amended): a descriptor-backed instance with recorded
size 3 fed the delivery schedule `[[1,2],[3],[]]` (two data chunks then
end-of-stream) ends with offset equal to its recorded file size. -/
theorem noDecompressor_offset_invariant_witness :
    (NoDecompressor.readSeq
        { NoDecompressor.mkFd 7 with
          toDecompressor :=
            Decompressor.set_file_size (NoDecompressor.mkFd 7).toDecompressor 3 }
        [[1, 2], [3], []]).2.1.toDecompressor.m_offset =
      (NoDecompressor.readSeq
        { NoDecompressor.mkFd 7 with
          toDecompressor :=
            Decompressor.set_file_size (NoDecompressor.mkFd 7).toDecompressor 3 }
        [[1, 2], [3], []]).2.1.toDecompressor.m_file_size :=
  (noDecompressor_offset_invariant
    { NoDecompressor.mkFd 7 with
      toDecompressor :=
        Decompressor.set_file_size (NoDecompressor.mkFd 7).toDecompressor 3 }
    [[1, 2], [3], []] rfl rfl).2.2.2 rfl (by decide)

/-! ### C9: ownership transfer of owning instances -/

/-- Counterexample to C9 as stated: `NoCompressor` (lines 249-253) deletes
its move constructor and move assignment as well, so a descriptor-owning
instance is not movable and the move-only-ownership property fails. -/
theorem noCompressor_not_move_only :
    ¬ moveOnlyOwnership NoCompressor.specialMembers := by
  unfold moveOnlyOwnership NoCompressor.specialMembers
  decide

/-- C9 (amended): every descriptor- or buffer-owning instance type
(`NoCompressor`, `NoDecompressor`, and the `Decompressor` base every
decompressor inherits) is neither copyable nor movable: all four special
member functions are deleted, so no two live instances can own the same
descriptor and independently close it. -/
theorem owning_instances_not_copyable_not_movable :
    (NoCompressor.specialMembers.copy_ctor_deleted = true ∧
     NoCompressor.specialMembers.copy_assign_deleted = true ∧
     NoCompressor.specialMembers.move_ctor_deleted = true ∧
     NoCompressor.specialMembers.move_assign_deleted = true) ∧
    (NoDecompressor.specialMembers.copy_ctor_deleted = true ∧
     NoDecompressor.specialMembers.copy_assign_deleted = true ∧
     NoDecompressor.specialMembers.move_ctor_deleted = true ∧
     NoDecompressor.specialMembers.move_assign_deleted = true) ∧
    (Decompressor.specialMembers.copy_ctor_deleted = true ∧
     Decompressor.specialMembers.copy_assign_deleted = true ∧
     Decompressor.specialMembers.move_ctor_deleted = true ∧
     Decompressor.specialMembers.move_assign_deleted = true) := by
  unfold NoCompressor.specialMembers NoDecompressor.specialMembers Decompressor.specialMembers
  decide

/-! ### C1: unsupported-format failure at creation time -/

/-- C1: when an identifier has no registered constructor triple, each of
the three creation operations fails with `unsupported_file_format_error`
whose message names the requested identifier via `as_string`. The
conclusion holds for every registry in which the identifier is absent,
whatever callbacks other identifiers carry, and the result is an error
rather than a constructed instance, so no constructor callback is invoked
and no byte is read or written. -/
theorem create_unsupported_format (m : compression_map callbacks_type)
    (compression : file_compression) (file_size_of : Int → Nat) (fd : Int)
    (sync : fsync) (buffer : List Nat) (size : Nat)
    (h : map_find m compression = Option.none) :
    create_compressor m compression fd sync =
      Except.error (io_error.unsupported_file_format_error
        ("Support for compression \x27" ++ as_string compression ++
          "\x27 not compiled into this binary")) ∧
    create_decompressor_fd file_size_of m compression fd =
      Except.error (io_error.unsupported_file_format_error
        ("Support for compression \x27" ++ as_string compression ++
          "\x27 not compiled into this binary")) ∧
    create_decompressor_buffer m compression buffer size =
      Except.error (io_error.unsupported_file_format_error
        ("Support for compression \x27" ++ as_string compression ++
          "\x27 not compiled into this binary")) := by
  have hf : find_callbacks m compression =
      Except.error (io_error.unsupported_file_format_error
        (unsupported_error_message compression)) := by
    unfold find_callbacks
    rw [h]
  refine ⟨?_, ?_, ?_⟩ <;>
    simp [create_compressor, create_decompressor_fd, create_decompressor_buffer, hf,
      unsupported_error_message, Except.map]

/-- Witness for C1: the empty registry and the `gzip` identifier. -/
theorem create_unsupported_format_witness :
    create_compressor [] file_compression.gzip 0 fsync.no =
      Except.error (io_error.unsupported_file_format_error
        ("Support for compression \x27" ++ as_string file_compression.gzip ++
          "\x27 not compiled into this binary")) :=
  (create_unsupported_format [] file_compression.gzip (fun _ => 0) 0 fsync.no [] 0 rfl).1

/-! ### C2: first registration wins -/

/-- C2: registering an absent identifier returns `true` and stores the
triple; any later registration call with that identifier returns `false`
and leaves the registry unchanged (and, being a total function, raises no
error); the stored first triple survives arbitrary later registrations and
is the one `find_callbacks` — hence every subsequent creation — uses. -/
theorem register_compression_first_wins (m : compression_map callbacks_type)
    (compression : file_compression)
    (cc1 cc2 : create_compressor_type) (cdf1 cdf2 : create_decompressor_type_fd)
    (cdb1 cdb2 : create_decompressor_type_buffer)
    (h : map_find m compression = Option.none) :
    (register_compression m compression cc1 cdf1 cdb1).2 = true ∧
    map_find (register_compression m compression cc1 cdf1 cdb1).1 compression =
      some (cc1, cdf1, cdb1) ∧
    (∀ m2 : compression_map callbacks_type,
      map_find m2 compression = some (cc1, cdf1, cdb1) →
      register_compression m2 compression cc2 cdf2 cdb2 = (m2, false)) ∧
    (∀ (m2 : compression_map callbacks_type) (c2 : file_compression) (t : callbacks_type),
      map_find m2 compression = some (cc1, cdf1, cdb1) →
      map_find (register_compression m2 c2 t.1 t.2.1 t.2.2).1 compression =
        some (cc1, cdf1, cdb1)) ∧
    (∀ m2 : compression_map callbacks_type,
      map_find m2 compression = some (cc1, cdf1, cdb1) →
      find_callbacks m2 compression = Except.ok (cc1, cdf1, cdb1)) := by
  refine ⟨?_, ?_, ?_, ?_, ?_⟩
  · unfold register_compression map_insert
    rw [h]
  · unfold register_compression map_insert
    rw [h]
    exact map_find_append_self m compression _ h
  · intro m2 h2
    unfold register_compression map_insert
    rw [h2]
  · intro m2 c2 t h2
    unfold register_compression map_insert
    rcases hf : map_find m2 c2 with _ | w
    · exact map_find_append_of_some m2 _ compression _ h2
    · exact h2
  · intro m2 h2
    unfold find_callbacks
    rw [h2]

/-- Witness for C2: registering the built-in no-compression triple on the
empty registry returns `true`. -/
theorem register_compression_first_wins_witness :
    (register_compression [] file_compression.none no_compression_callbacks.1
        no_compression_callbacks.2.1 no_compression_callbacks.2.2).2 = true :=
  (register_compression_first_wins [] file_compression.none
    no_compression_callbacks.1 no_compression_callbacks.1
    no_compression_callbacks.2.1 no_compression_callbacks.2.1
    no_compression_callbacks.2.2 no_compression_callbacks.2.2 rfl).1

/-! ### C8: the descriptor-based factory records the source size -/

/-- C8: for a registered identifier, the descriptor-based
`create_decompressor` sets the new instance's `file_size()` to the
queried size of the descriptor before returning it, while the
buffer-based variant returns the callback's instance untouched — for the
built-in registration its `file_size()` is still 0, the unknown value. -/
theorem create_decompressor_records_size (file_size_of : Int → Nat)
    (m : compression_map callbacks_type) (compression : file_compression)
    (cb : callbacks_type) (fd : Int) (buffer : List Nat) (size : Nat)
    (h : map_find m compression = some cb) :
    create_decompressor_fd file_size_of m compression fd =
      Except.ok (DecompressorPtr.set_file_size (cb.2.1 fd) (file_size_of fd)) ∧
    (create_decompressor_fd file_size_of m compression fd).map DecompressorPtr.file_size =
      Except.ok (file_size_of fd) ∧
    create_decompressor_buffer m compression buffer size =
      Except.ok (cb.2.2 buffer size) ∧
    (create_decompressor_buffer default_registry file_compression.none buffer size).map
        DecompressorPtr.file_size = Except.ok 0 := by
  have hf : find_callbacks m compression = Except.ok cb := by
    unfold find_callbacks
    rw [h]
  refine ⟨?_, ?_, ?_, rfl⟩
  · simp [create_decompressor_fd, hf, Except.map]
  · simp [create_decompressor_fd, hf, Except.map, DecompressorPtr.file_size_set]
  · simp [create_decompressor_buffer, hf, Except.map]

/-- Witness for C8: the default registry's `none` entry, descriptor 5, and
a platform size query answering 42. -/
theorem create_decompressor_records_size_witness :
    create_decompressor_fd (fun _ => 42) default_registry file_compression.none 5 =
      Except.ok (DecompressorPtr.set_file_size (no_compression_callbacks.2.1 5) 42) ∧
    (create_decompressor_buffer default_registry file_compression.none [1, 2] 2).map
        DecompressorPtr.file_size = Except.ok 0 :=
  ⟨(create_decompressor_records_size (fun _ => 42) default_registry file_compression.none
      no_compression_callbacks 5 [] 0 rfl).1,
   (create_decompressor_records_size (fun _ => 0) default_registry file_compression.none
      no_compression_callbacks 0 [1, 2] 2 rfl).2.2.2⟩

end Osmium
